import Mathlib

/-!
Verification of the language-model provider core of this repository, centred on
the Ollama provider (crates/language_model/src/provider/ollama.rs) and the
capability contracts of crates/language_model/src/language_model.rs.

Pure values and functions are translated directly from the Rust source.  Parts
of the crate that the excerpt only declares or calls (the `ollama` wire crate,
`rate_limiter.rs`, `role.rs`, `request.rs`) are modelled from the specification
and are marked as such in their doc comments.  Asynchronous calls are modelled
as explicit oracles (the backend transport is a function from the wire request
to the event list its stream yields), futures as an explicit ready/suspended
tree, and streams as the finite list of items they deliver.
-/

namespace ZedOllama

/-- Modelled from the spec: Rust's `Result` type, used for every fallible
operation of the core (`anyhow::Error` is modelled as its message string). -/
inductive Result (α : Type) (ε : Type) where
  | ok (a : α)
  | err (e : ε)
deriving DecidableEq, Repr

/-- Whether a result is the error case. -/
def Result.isErr {α ε : Type} : Result α ε → Bool
  | .ok _ => false
  | .err _ => true

/-- Modelled from the spec: a future, as the host scheduler sees it — either
already resolved (`future::ready`) or suspended awaiting another poll.  Only
readiness is needed here: the source's `use_any_tool` builds its future with
`future::ready`. -/
inductive Fut (α : Type) where
  | ready (a : α)
  | suspended (next : Unit → Fut α)

/-- Modelled from the spec: the message `Role` of `role.rs` (not in the
excerpt); its three variants are fixed by the exhaustive match in
`to_ollama_request`. -/
inductive Role where
  | system
  | user
  | assistant
deriving DecidableEq, Repr

/-- Modelled from the spec: a chat message of the generic request — a role and
its text content (`request.rs` is not in the excerpt). -/
structure Message where
  role : Role
  content : String
deriving DecidableEq, Repr

/-- Modelled from the spec: the generic `LanguageModelRequest` — ordered
messages, stop strings and a temperature (`request.rs` is not in the excerpt;
the fields are fixed by their use in ollama.rs).  The `f32` temperature is
modelled as a rational: the core only carries it through unchanged. -/
structure LanguageModelRequest where
  messages : List Message
  stop : List String
  temperature : Rat
deriving DecidableEq, Repr

namespace Ollama

/-- Modelled from the spec: the `ollama` crate's role-tagged wire message;
its three variants and their `content` field are fixed by their construction
in `to_ollama_request` and the exhaustive match in `stream_completion`. -/
inductive ChatMessage where
  | user (content : String)
  | assistant (content : String)
  | system (content : String)
deriving DecidableEq, Repr

/-- The content fragment a wire message carries, whatever its role tag
(the match of `stream_completion`, lines 263-267 of ollama.rs). -/
def ChatMessage.content : ChatMessage → String
  | .user content => content
  | .assistant content => content
  | .system content => content

/-- Modelled from the spec: the wire request's options structure — context
window, stop sequences and temperature, every field optional with a `None`
default (`..Default::default()`). -/
structure ChatOptions where
  num_ctx : Option Nat := none
  stop : Option (List String) := none
  temperature : Option Rat := none
deriving DecidableEq, Repr

/-- Modelled from the spec: the backend wire request
`{model, messages, keep_alive, stream, options}` (the `ollama` crate is not in
the excerpt; the shape is fixed by `to_ollama_request` and the spec's
illustrative wire protocol). -/
structure ChatRequest where
  model : String
  messages : List ChatMessage
  keep_alive : String
  stream : Bool
  options : Option ChatOptions
deriving DecidableEq, Repr

/-- Modelled from the spec: the `ollama` crate's `Model`
{name, context window, keep-alive}; only the fields ollama.rs reads. -/
structure Model where
  name : String
  max_tokens : Nat := 2048
  keep_alive : Option String := none
deriving DecidableEq, Repr

/-- Modelled from the spec: `ollama::Model::new(name)` builds a model record
carrying that name and default parameters (line 61 of ollama.rs). -/
def Model.new (name : String) : Model :=
  { name := name }

/-- Modelled from the spec: one role-tagged delta event of the backend's
response stream, carrying an incremental content fragment in `message`. -/
structure ChatResponseDelta where
  message : ChatMessage
deriving DecidableEq, Repr

end Ollama

/-- Whether `pat` is a prefix of the character list `l`. -/
def isPrefixList : List Char → List Char → Bool
  | [], _ => true
  | _ :: _, [] => false
  | a :: as, b :: bs => a == b && isPrefixList as bs

/-- Whether `pat` occurs as a contiguous sublist of `l`. -/
def isInfixList (pat : List Char) : List Char → Bool
  | [] => isPrefixList pat []
  | b :: bs => isPrefixList pat (b :: bs) || isInfixList pat bs

/-- Rust's `str::contains(pat)` for string patterns: substring containment
(UTF-8 byte containment coincides with character-list containment here). -/
def str_contains (hay pat : String) : Bool :=
  isInfixList pat.toList hay.toList

/-- The sort key of a model: its name's character codes.  Rust's `String::cmp`
is byte-wise lexicographic, which on UTF-8 equals code-point lexicographic
order, embedded as the lexicographic order on code lists. -/
def nameKey (m : Ollama.Model) : List Nat :=
  m.name.toList.map Char.toNat

/-- The comparator of `fetch_models`' sort: `a.name.cmp(&b.name)` as a
less-or-equal relation. -/
def nameLe (a b : Ollama.Model) : Prop :=
  nameKey a ≤ nameKey b

instance (a b : Ollama.Model) : Decidable (nameLe a b) :=
  inferInstanceAs (Decidable (nameKey a ≤ nameKey b))

/-- Insert a model into a name-sorted list, before the first entry it does not
strictly follow. -/
def insertByName (m : Ollama.Model) : List Ollama.Model → List Ollama.Model
  | [] => [m]
  | x :: xs => if nameLe m x then m :: x :: xs else x :: insertByName m xs

/-- `models.sort_by(|a, b| a.name.cmp(&b.name))` (line 64 of ollama.rs): a
stable comparison sort by name, embedded as insertion sort. -/
def sort_by_name : List Ollama.Model → List Ollama.Model
  | [] => []
  | x :: xs => insertByName x (sort_by_name xs)

/-- The pure pipeline of `State::fetch_models` (lines 55-64 of ollama.rs):
filter out models whose name contains "-embed", rebuild each survivor with
`Model::new(&model.name)`, and sort the result by name. -/
def fetch_models_pure (fetched : List Ollama.Model) : List Ollama.Model :=
  sort_by_name
    ((fetched.filter (fun model => !(str_contains model.name "-embed"))).map
      (fun model => Ollama.Model.new model.name))

/-- The provider's observable state: the current snapshot of available models
(the `http_client` handle and the settings subscription carry no data the
claims concern). -/
structure State where
  available_models : List Ollama.Model
deriving DecidableEq, Repr

/-- `State::is_authenticated` (lines 42-44 of ollama.rs). -/
def State.is_authenticated (s : State) : Bool :=
  !s.available_models.isEmpty

/-- The snapshot a freshly constructed provider starts from:
`available_models: Default::default()` (line 80 of ollama.rs). -/
def State.initial : State :=
  { available_models := [] }

/-- Modelled from the spec: the outcome of the asynchronous
`get_models(http_client, api_url, None)` probe — either the listed models or a
transport error. -/
inductive FetchOutcome where
  | models (ms : List Ollama.Model)
  | failure (e : String)
deriving Repr

/-- `State::fetch_models` (lines 46-71 of ollama.rs) as a state transformer
over the probe's outcome: on success the snapshot is replaced by the filtered,
renamed and sorted list; on probe failure the `?` propagates the error and the
snapshot is left untouched. -/
def State.fetch_models (s : State) : FetchOutcome → State × Result Unit String
  | .models ms => ({ available_models := fetch_models_pure ms }, .ok ())
  | .failure e => (s, .err e)

/-- Every snapshot the provider can ever hold: the initial empty snapshot and
anything a `fetch_models` step (triggered by construction, a settings change,
`authenticate` or `reset_credentials`) produces from a reachable one. -/
inductive Reachable : State → Prop
  | init : Reachable State.initial
  | fetch (s : State) (o : FetchOutcome) : Reachable s → Reachable (s.fetch_models o).1

/-- Modelled from the spec: the `RateLimiter` of rate_limiter.rs (not in the
excerpt; only its construction `RateLimiter::new(4)` and its `stream` method
are) — a counting admission gate with a capacity fixed at construction. -/
structure RateLimiter where
  capacity : Nat
deriving DecidableEq, Repr

/-- `RateLimiter::new(capacity)`. -/
def RateLimiter.new (capacity : Nat) : RateLimiter :=
  { capacity := capacity }

/-- A permit-counter event of one rate limiter. -/
inductive PermitEvent where
  | acquire
  | release
deriving DecidableEq, Repr

/-- Modelled from the spec: the admissible histories of one limiter's permit
counter, with the count as an integer so that non-negativity is a statement
rather than a typing artifact.  An acquire is only admitted while the count is
strictly below capacity (callers beyond capacity suspend); a release only ever
comes from a holder, so it is only admitted while the count is positive.
`Admissible cap es n` states that `es` is such a history and leaves the count
at `n`. -/
inductive Admissible (cap : Nat) : List PermitEvent → Int → Prop
  | nil : Admissible cap [] 0
  | acquire {es : List PermitEvent} {n : Int} :
      Admissible cap es n → n < (cap : Int) →
      Admissible cap (es ++ [PermitEvent.acquire]) (n + 1)
  | release {es : List PermitEvent} {n : Int} :
      Admissible cap es n → 0 < n →
      Admissible cap (es ++ [PermitEvent.release]) (n - 1)

/-- The observable events of one `RateLimiter.stream` call, permit events
included. -/
inductive StreamEvent where
  | acquire
  | constructed
  | item (r : Result String String)
  | terminated
  | release
deriving DecidableEq, Repr

/-- Modelled from the spec: the event trace of one `RateLimiter.stream(op)`
call whose stream delivers `items` — the permit is acquired before `op` runs,
the stream object is then constructed, the items flow, and only once the
stream terminates (fully drained, errored out, or dropped by the consumer) is
the permit released. -/
def RateLimiter.streamTrace (items : List (Result String String)) : List StreamEvent :=
  [StreamEvent.acquire, StreamEvent.constructed]
    ++ items.map StreamEvent.item
    ++ [StreamEvent.terminated, StreamEvent.release]

/-- `OllamaSettings` (lines 24-28 of ollama.rs); the `Duration` is modelled as
its millisecond count. -/
structure OllamaSettings where
  api_url : String
  low_speed_timeout : Option Nat := none
deriving DecidableEq, Repr

/-- `OllamaLanguageModel` (lines 160-165 of ollama.rs); the `http_client`
handle carries no data the claims concern. -/
structure OllamaLanguageModel where
  id : String
  model : Ollama.Model
  request_limiter : RateLimiter
deriving DecidableEq, Repr

/-- `OllamaLanguageModel::to_ollama_request` (lines 168-195 of ollama.rs). -/
def OllamaLanguageModel.to_ollama_request (self : OllamaLanguageModel)
    (request : LanguageModelRequest) : Ollama.ChatRequest :=
  { model := self.model.name
    messages := request.messages.map (fun msg =>
      match msg.role with
      | Role.user => Ollama.ChatMessage.user msg.content
      | Role.assistant => Ollama.ChatMessage.assistant msg.content
      | Role.system => Ollama.ChatMessage.system msg.content)
    keep_alive := self.model.keep_alive.getD ""
    stream := true
    options := some
      { num_ctx := some self.model.max_tokens
        stop := some request.stop
        temperature := some request.temperature } }

/-- The spec-side role translation, named so the bijectivity of the role map
can be stated against `to_ollama_request`. -/
def role_to_chat (role : Role) (content : String) : Ollama.ChatMessage :=
  match role with
  | Role.user => Ollama.ChatMessage.user content
  | Role.assistant => Ollama.ChatMessage.assistant content
  | Role.system => Ollama.ChatMessage.system content

/-- The role tag a wire message carries, read back into the generic `Role`. -/
def chat_role : Ollama.ChatMessage → Role
  | .user _ => Role.user
  | .assistant _ => Role.assistant
  | .system _ => Role.system

/-- The total character count of a request's message contents, written as its
own recursion so the token-count theorem is not a restatement of
`count_tokens`. -/
def total_chars : List Message → Nat
  | [] => 0
  | msg :: rest => msg.content.length + total_chars rest

/-- `OllamaLanguageModel::count_tokens` (lines 223-238 of ollama.rs): the
heuristic estimate — per-message `chars().count()` summed, then integer
division by 4 — wrapped in an immediately-ready `Ok`. -/
def OllamaLanguageModel.count_tokens (_self : OllamaLanguageModel)
    (request : LanguageModelRequest) : Result Nat String :=
  .ok ((request.messages.map (fun msg => msg.content.length)).sum / 4)

/-- `OllamaLanguageModel::use_any_tool` (lines 280-289 of ollama.rs):
`future::ready(Err(anyhow!("not implemented")))`.  The `serde_json::Value`
schema and result are modelled as opaque strings. -/
def OllamaLanguageModel.use_any_tool (_self : OllamaLanguageModel)
    (_request : LanguageModelRequest) (_name _description _schema : String) :
    Fut (Result String String) :=
  Fut.ready (Result.err "not implemented")

/-- Modelled from the spec: the error-kind classification of §7 —
`UnsupportedOperation` covers "tool-calling not implemented by a backend",
which this provider reports with the message "not implemented". -/
def is_unsupported_operation (e : String) : Bool :=
  e == "not implemented"

/-- The normalization `stream_completion` applies to each backend event
(the `filter_map` closure, lines 260-272 of ollama.rs): a delta event is
flattened to its content text whatever role tag it carries; an error event is
passed through unmodified. -/
def normalize_event : Result Ollama.ChatResponseDelta String → Result String String
  | .ok delta => .ok delta.message.content
  | .err error => .err error

/-- Modelled from the spec: the transport call `stream_chat_completion` of the
`ollama` crate (not in the excerpt) — given the wire request, the api url and
the low-speed timeout it either fails to connect or yields the backend's event
stream, modelled as the finite list of events the stream delivers. -/
abbrev StreamChatCompletion :=
  Ollama.ChatRequest → String → Option Nat →
    Result (List (Result Ollama.ChatResponseDelta String)) String

/-- `OllamaLanguageModel::stream_completion` (lines 240-278 of ollama.rs) as a
function of the settings read (`none` models the host application having
dropped its state mid-call) and the transport oracle: translate the request,
read the settings or fail synchronously, issue the call through the limiter,
and map `normalize_event` over the backend's event stream. -/
def OllamaLanguageModel.stream_completion (self : OllamaLanguageModel)
    (request : LanguageModelRequest) (settings : Option OllamaSettings)
    (backend : StreamChatCompletion) :
    Result (List (Result String String)) String :=
  let req := self.to_ollama_request request
  match settings with
  | none => .err "App state dropped"
  | some s =>
    match backend req s.api_url s.low_speed_timeout with
    | .err e => .err e
    | .ok response => .ok (response.map normalize_event)

/-- The limiter-event trace of one `stream_completion` call: a settings
failure returns before the limiter is touched; a transport failure inside
`RateLimiter.stream` releases the permit with no stream ever constructed; a
successful call produces the full stream-lifetime trace over the normalized
items. -/
def OllamaLanguageModel.stream_completion_trace (self : OllamaLanguageModel)
    (request : LanguageModelRequest) (settings : Option OllamaSettings)
    (backend : StreamChatCompletion) : List StreamEvent :=
  match settings with
  | none => []
  | some s =>
    match backend (self.to_ollama_request request) s.api_url s.low_speed_timeout with
    | .err _ => [StreamEvent.acquire, StreamEvent.release]
    | .ok response => RateLimiter.streamTrace (response.map normalize_event)

/-- Whether error events occur only in terminal position of an event list. -/
def errors_terminal {α : Type} (events : List (Result α String)) : Prop :=
  ∀ i (h : i < events.length),
    (events.get ⟨i, h⟩).isErr = true → i = events.length - 1

/-- `OllamaLanguageModelProvider::provided_models` (lines 110-124 of
ollama.rs): one `OllamaLanguageModel` per snapshot entry, in snapshot order,
each with its own `RateLimiter::new(4)`. -/
def provided_models (s : State) : List OllamaLanguageModel :=
  s.available_models.map (fun model =>
    { id := model.name
      model := model
      request_limiter := RateLimiter.new 4 })

/-- The outcome of one `authenticate` call: its returned result, the state it
leaves behind, and whether a fresh probe was performed. -/
structure AuthOutcome where
  result : Result Unit String
  state : State
  probed : Bool
deriving DecidableEq, Repr

/-- `OllamaLanguageModelProvider::authenticate` (lines 139-145 of ollama.rs):
already authenticated means `Task::ready(Ok(()))` with no probe; otherwise the
`fetch_models` probe runs against the backend. -/
def authenticate (s : State) (probe : FetchOutcome) : AuthOutcome :=
  if s.is_authenticated then
    { result := .ok (), state := s, probed := false }
  else
    let r := s.fetch_models probe
    { result := r.2, state := r.1, probed := true }

/-- A concrete model fixture: the handle `provided_models` builds for a model
named "llama2". -/
def sampleModel : OllamaLanguageModel :=
  { id := "llama2", model := Ollama.Model.new "llama2", request_limiter := RateLimiter.new 4 }

/-- The spec's scenario request: one user message "Hello", no stop sequences,
temperature 0.7. -/
def sampleRequest : LanguageModelRequest :=
  { messages := [{ role := Role.user, content := "Hello" }], stop := [], temperature := 7 / 10 }

/-- A concrete settings fixture. -/
def sampleSettings : OllamaSettings :=
  { api_url := "http://localhost:11434" }

/-- A transport oracle whose stream yields the single delta "Hi". -/
def backendHi : StreamChatCompletion :=
  fun _ _ _ => .ok [.ok { message := Ollama.ChatMessage.assistant "Hi" }]

/-- A transport oracle whose stream yields the deltas "Hi" and " there". -/
def backendHiThere : StreamChatCompletion :=
  fun _ _ _ =>
    .ok [.ok { message := Ollama.ChatMessage.assistant "Hi" },
         .ok { message := Ollama.ChatMessage.assistant " there" }]

/-- A probe outcome listing an embedding model alongside a chat model. -/
def embedFetch : FetchOutcome :=
  FetchOutcome.models [Ollama.Model.new "bge-embed-large", Ollama.Model.new "llama2"]

/-- A request whose messages total exactly eight characters. -/
def eightCharRequest : LanguageModelRequest :=
  { messages := [{ role := Role.user, content := "Hello" }, { role := Role.user, content := "abc" }]
    stop := [], temperature := 7 / 10 }

theorem sum_map_content_length_eq_total_chars (msgs : List Message) :
    (msgs.map (fun msg => msg.content.length)).sum = total_chars msgs := by
  induction msgs with
  | nil => rfl
  | cons m rest ih => simp [total_chars, ih]

/-- C3: `count_tokens` on the Ollama model never fails: for every request it
returns `Ok` of the total number of characters across all message contents
divided by 4 with integer division, and in particular `Ok k` whenever that
total is exactly `4 * k`. -/
theorem count_tokens_char_quarter_heuristic :
    ∀ (self : OllamaLanguageModel) (request : LanguageModelRequest),
      self.count_tokens request = Result.ok (total_chars request.messages / 4)
      ∧ ∀ k : Nat, total_chars request.messages = 4 * k →
          self.count_tokens request = Result.ok k := by
  intro self request
  constructor
  · simp [OllamaLanguageModel.count_tokens, sum_map_content_length_eq_total_chars]
  · intro k hk
    simp [OllamaLanguageModel.count_tokens, sum_map_content_length_eq_total_chars, hk,
      Nat.mul_div_cancel_left]

/-- C3 at a concrete input: eight characters across two messages give two
tokens. -/
theorem count_tokens_char_quarter_heuristic_witness :
    sampleModel.count_tokens eightCharRequest = Result.ok 2 :=
  (count_tokens_char_quarter_heuristic sampleModel eightCharRequest).2 2 rfl

/-- C4: for every request and tool name, description and schema,
`use_any_tool` on the Ollama model (a backend without tool-calling support)
resolves immediately — its future is ready, never suspended — to the
"not implemented" error, the spec's `UnsupportedOperation` kind. -/
theorem use_any_tool_unsupported_immediate :
    ∀ (self : OllamaLanguageModel) (request : LanguageModelRequest)
      (name description schema : String),
      self.use_any_tool request name description schema
        = Fut.ready (Result.err "not implemented")
      ∧ is_unsupported_operation "not implemented" = true := by
  intro self request name description schema
  exact ⟨rfl, rfl⟩

/-- C5: `is_authenticated` holds exactly when the current snapshot carries at
least one model, and the freshly constructed provider's empty snapshot (before
any successful probe) reports false. -/
theorem is_authenticated_iff_models_nonempty :
    (∀ s : State, s.is_authenticated = true ↔ s.available_models ≠ [])
    ∧ State.initial.is_authenticated = false := by
  constructor
  · intro s
    cases s with
    | mk models =>
      cases models with
      | nil => simp [State.is_authenticated]
      | cons m rest => simp [State.is_authenticated]
  · rfl

/-- C7: `authenticate` is idempotent: when the snapshot is already non-empty
it returns immediate success, leaves the state unchanged and performs no
probe, whatever the backend would have answered. -/
theorem authenticate_idempotent_when_authenticated :
    ∀ (s : State) (probe : FetchOutcome), s.is_authenticated = true →
      authenticate s probe = { result := Result.ok (), state := s, probed := false } := by
  intro s probe h
  simp [authenticate, h]

/-- C7 at a concrete input: an authenticated provider answers `Ok` without
probing even an unreachable backend. -/
theorem authenticate_idempotent_witness :
    authenticate { available_models := [Ollama.Model.new "a"] }
        (FetchOutcome.failure "unreachable")
      = { result := Result.ok ()
          state := { available_models := [Ollama.Model.new "a"] }
          probed := false } :=
  authenticate_idempotent_when_authenticated _ _ rfl

theorem normalize_event_isErr (r : Result Ollama.ChatResponseDelta String) :
    (normalize_event r).isErr = r.isErr := by
  cases r <;> rfl

/-- C2: for every backend event stream handed over by the transport, the
normalized stream of `stream_completion` has one item per backend event in
exact arrival order — the content text for a delta event whatever role tag it
carries, the untouched error for an error event — and when the transport's
errors are terminal (the spec's stream contract) the normalized stream's
errors are terminal too, nothing following them. -/
theorem stream_completion_normalizes_in_order :
    ∀ (self : OllamaLanguageModel) (request : LanguageModelRequest)
      (s : OllamaSettings) (backend : StreamChatCompletion)
      (events : List (Result Ollama.ChatResponseDelta String)),
      backend (self.to_ollama_request request) s.api_url s.low_speed_timeout
          = Result.ok events →
        self.stream_completion request (some s) backend
            = Result.ok (events.map normalize_event)
        ∧ (events.map normalize_event).length = events.length
        ∧ (∀ (i : Nat) (delta : Ollama.ChatResponseDelta),
            events[i]? = some (Result.ok delta) →
            (events.map normalize_event)[i]? = some (Result.ok delta.message.content))
        ∧ (∀ (i : Nat) (e : String), events[i]? = some (Result.err e) →
            (events.map normalize_event)[i]? = some (Result.err e))
        ∧ (errors_terminal events → errors_terminal (events.map normalize_event)) := by
  intro self request s backend events hb
  refine ⟨?_, by simp, ?_, ?_, ?_⟩
  · simp [OllamaLanguageModel.stream_completion, hb]
  · intro i delta hi
    simp [List.getElem?_map, hi, normalize_event]
  · intro i e hi
    simp [List.getElem?_map, hi, normalize_event]
  · intro hterm i h hi
    have h' : i < events.length := by simpa using h
    have hg : (events.map normalize_event).get ⟨i, h⟩
        = normalize_event (events.get ⟨i, h'⟩) := by
      simp [List.get_eq_getElem]
    rw [hg, normalize_event_isErr] at hi
    have := hterm i h' hi
    simpa using this

/-- C2 at the spec's scenario: backend deltas "Hi" and " there" yield exactly
the text deltas "Hi" then " there", in order, then normal termination. -/
theorem stream_completion_normalizes_witness :
    sampleModel.stream_completion sampleRequest (some sampleSettings) backendHiThere
      = Result.ok [Result.ok "Hi", Result.ok " there"] :=
  (stream_completion_normalizes_in_order sampleModel sampleRequest sampleSettings
      backendHiThere
      [Result.ok { message := Ollama.ChatMessage.assistant "Hi" },
       Result.ok { message := Ollama.ChatMessage.assistant " there" }] rfl).1

/-- C9: `to_ollama_request` sets `stream = true`, addresses the backend model
by name, translates each message in order preserving its content under a
bijective role map, and carries the stop sequences, the temperature and the
model's context window into the wire options. -/
theorem to_ollama_request_translation :
    ∀ (self : OllamaLanguageModel) (request : LanguageModelRequest),
      (self.to_ollama_request request).stream = true
      ∧ (self.to_ollama_request request).model = self.model.name
      ∧ (self.to_ollama_request request).messages.length = request.messages.length
      ∧ (∀ (i : Nat) (msg : Message), request.messages[i]? = some msg →
          (self.to_ollama_request request).messages[i]?
            = some (role_to_chat msg.role msg.content))
      ∧ (∀ (role : Role) (content : String),
          chat_role (role_to_chat role content) = role
          ∧ (role_to_chat role content).content = content)
      ∧ (∀ m : Ollama.ChatMessage, role_to_chat (chat_role m) m.content = m)
      ∧ (self.to_ollama_request request).options
          = some { num_ctx := some self.model.max_tokens
                   stop := some request.stop
                   temperature := some request.temperature } := by
  intro self request
  refine ⟨rfl, rfl, by simp [OllamaLanguageModel.to_ollama_request], ?_, ?_, ?_, rfl⟩
  · intro i msg hi
    simp only [OllamaLanguageModel.to_ollama_request, List.getElem?_map, hi, Option.map_some]
    cases msg with
    | mk role content => cases role <;> rfl
  · intro role content
    cases role <;> exact ⟨rfl, rfl⟩
  · intro m
    cases m <;> rfl

/-- C9 at a concrete input: the single user message "Hello" crosses into the
wire request as the user-tagged wire message "Hello" at the same position. -/
theorem to_ollama_request_translation_witness :
    (sampleModel.to_ollama_request sampleRequest).messages[0]?
      = some (Ollama.ChatMessage.user "Hello") :=
  (to_ollama_request_translation sampleModel sampleRequest).2.2.2.1 0
    { role := Role.user, content := "Hello" } rfl

/-- C6 refuted on the code at a concrete input: a provider authenticated with
the single model "llama2" hands out `sampleModel`; a later successful probe
against a backend reporting no models empties the snapshot (authentication
false, no models provided); yet `stream_completion` on the held handle still
reaches the transport and returns the backend's delta — network I/O is
attempted and the result is not an authentication failure, nor any error at
all. -/
theorem stream_completion_no_auth_gate_counterexample :
    provided_models { available_models := [Ollama.Model.new "llama2"] } = [sampleModel]
    ∧ State.fetch_models { available_models := [Ollama.Model.new "llama2"] }
        (FetchOutcome.models [])
        = ({ available_models := [] }, Result.ok ())
    ∧ State.is_authenticated { available_models := [] } = false
    ∧ provided_models { available_models := [] } = []
    ∧ sampleModel.stream_completion sampleRequest (some sampleSettings) backendHi
        = Result.ok [Result.ok "Hi"] :=
  ⟨rfl, rfl, rfl, rfl, rfl⟩

/-- C6 amended: an empty snapshot reports unauthenticated and exposes no
models, so the provider offers nothing to call; `stream_completion` itself
performs no authentication check — its only failure modes are the synchronous
"App state dropped" setup error and an error the transport itself reported,
never an authentication error. -/
theorem stream_completion_failure_modes :
    (∀ s : State, s.available_models = [] →
      s.is_authenticated = false ∧ provided_models s = [])
    ∧ (∀ (self : OllamaLanguageModel) (request : LanguageModelRequest)
        (settings : Option OllamaSettings) (backend : StreamChatCompletion) (e : String),
        self.stream_completion request settings backend = Result.err e →
          (settings = none ∧ e = "App state dropped")
          ∨ ∃ s, settings = some s
              ∧ backend (self.to_ollama_request request) s.api_url s.low_speed_timeout
                  = Result.err e) := by
  constructor
  · intro s hs
    exact ⟨by simp [State.is_authenticated, hs], by simp [provided_models, hs]⟩
  · intro self request settings backend e h
    cases settings with
    | none =>
      left
      refine ⟨rfl, ?_⟩
      simp only [OllamaLanguageModel.stream_completion] at h
      exact (Result.err.injEq _ _ ▸ h).symm ▸ rfl
    | some s =>
      right
      refine ⟨s, rfl, ?_⟩
      simp only [OllamaLanguageModel.stream_completion] at h
      cases hb : backend (self.to_ollama_request request) s.api_url s.low_speed_timeout with
      | ok response =>
        rw [hb] at h
        simp at h
      | err e2 =>
        rw [hb] at h
        simp only [Result.err.injEq] at h
        rw [h]

/-- C6 amended, at a concrete input: the empty snapshot is unauthenticated and
provides no models. -/
theorem stream_completion_failure_modes_witness :
    State.is_authenticated { available_models := [] } = false
    ∧ provided_models { available_models := [] } = [] :=
  stream_completion_failure_modes.1 { available_models := [] } rfl

theorem nameLe_total (a b : Ollama.Model) : nameLe a b ∨ nameLe b a :=
  le_total (nameKey a) (nameKey b)

theorem mem_insertByName {m x : Ollama.Model} {l : List Ollama.Model} :
    x ∈ insertByName m l ↔ x = m ∨ x ∈ l := by
  induction l with
  | nil => simp [insertByName]
  | cons y ys ih =>
    by_cases h : nameLe m y
    · simp only [insertByName, if_pos h, List.mem_cons]
    · simp only [insertByName, if_neg h, List.mem_cons, ih]
      tauto

theorem sorted_insertByName {m : Ollama.Model} {l : List Ollama.Model}
    (hl : List.Sorted nameLe l) : List.Sorted nameLe (insertByName m l) := by
  induction l with
  | nil => simp [insertByName, List.sorted_singleton]
  | cons y ys ih =>
    rcases List.sorted_cons.mp hl with ⟨hy, hys⟩
    by_cases h : nameLe m y
    · rw [insertByName, if_pos h]
      refine List.sorted_cons.mpr ⟨?_, hl⟩
      intro b hb
      rcases List.mem_cons.mp hb with rfl | hb
      · exact h
      · exact le_trans h (hy b hb)
    · rw [insertByName, if_neg h]
      refine List.sorted_cons.mpr ⟨?_, ih hys⟩
      intro b hb
      rcases mem_insertByName.mp hb with hbm | hb
      · rw [hbm]
        exact (nameLe_total m y).resolve_left h
      · exact hy b hb

theorem sorted_sort_by_name (l : List Ollama.Model) :
    List.Sorted nameLe (sort_by_name l) := by
  induction l with
  | nil => exact List.sorted_nil
  | cons x xs ih => exact sorted_insertByName ih

theorem mem_sort_by_name {x : Ollama.Model} {l : List Ollama.Model} :
    x ∈ sort_by_name l ↔ x ∈ l := by
  induction l with
  | nil => simp [sort_by_name]
  | cons y ys ih => simp [sort_by_name, mem_insertByName, ih]

/-- C8: `provided_models` is a pure read returning one handle per snapshot
entry in snapshot order; every snapshot a successful probe installs is sorted
by model name; and the spec's scenario holds — authenticating the fresh
provider against a backend reporting ["b", "a"] yields provided models named
["a", "b"]. -/
theorem provided_models_sorted_by_name :
    (∀ st : State,
      (provided_models st).map (fun lm => lm.model) = st.available_models)
    ∧ (∀ (s : State) (ms : List Ollama.Model),
        List.Sorted nameLe ((s.fetch_models (FetchOutcome.models ms)).1).available_models)
    ∧ ((provided_models (authenticate State.initial
          (FetchOutcome.models [Ollama.Model.new "b", Ollama.Model.new "a"])).state).map
        (fun lm => lm.model.name)) = ["a", "b"] := by
  refine ⟨?_, ?_, ?_⟩
  · intro st
    rw [provided_models, List.map_map]
    exact List.map_id'' (fun model => rfl) st.available_models
  · intro s ms
    exact sorted_sort_by_name _
  · decide

theorem mem_fetch_models_pure {m : Ollama.Model} {ms : List Ollama.Model}
    (hm : m ∈ fetch_models_pure ms) : str_contains m.name "-embed" = false := by
  rw [fetch_models_pure] at hm
  rcases List.mem_map.mp (mem_sort_by_name.mp hm) with ⟨m0, hm0, rfl⟩
  rcases List.mem_filter.mp hm0 with ⟨_, hf⟩
  simpa [Ollama.Model.new] using hf

/-- C10: no reachable snapshot ever contains a model whose name contains the
substring "-embed": the initial snapshot is empty and every successful probe
filters such models out before installing the new snapshot, so
`provided_models` never returns one. -/
theorem no_embed_model_invariant :
    ∀ s : State, Reachable s →
      (∀ m ∈ s.available_models, str_contains m.name "-embed" = false)
      ∧ (∀ lm ∈ provided_models s, str_contains lm.model.name "-embed" = false) := by
  intro s hs
  have hmodels : ∀ m ∈ s.available_models, str_contains m.name "-embed" = false := by
    induction hs with
    | init =>
      intro m hm
      simp [State.initial] at hm
    | fetch s o hr ih =>
      cases o with
      | failure e =>
        simpa [State.fetch_models] using ih
      | models ms =>
        intro m hm
        simp only [State.fetch_models] at hm
        exact mem_fetch_models_pure hm
  refine ⟨hmodels, ?_⟩
  intro lm hlm
  rcases List.mem_map.mp hlm with ⟨m, hm, rfl⟩
  exact hmodels m hm

/-- C10 at a concrete input: probing a backend that reports "bge-embed-large"
and "llama2" installs only "llama2", which is embedding-free. -/
theorem no_embed_model_invariant_witness :
    ((State.initial.fetch_models embedFetch).1).available_models
        = [Ollama.Model.new "llama2"]
    ∧ str_contains (Ollama.Model.new "llama2").name "-embed" = false :=
  ⟨by decide, (no_embed_model_invariant _
      (Reachable.fetch State.initial embedFetch Reachable.init)).1 _ (by decide)⟩

theorem admissible_bounds {cap : Nat} {es : List PermitEvent} {n : Int}
    (h : Admissible cap es n) : 0 ≤ n ∧ n ≤ (cap : Int) := by
  induction h with
  | nil => omega
  | acquire h hcap ih => omega
  | release h hpos ih => omega

theorem count_release_map_item (items : List (Result String String)) :
    (items.map StreamEvent.item).count StreamEvent.release = 0 := by
  rw [List.count_eq_zero]
  simp

theorem streamTrace_split (items : List (Result String String)) :
    RateLimiter.streamTrace items
      = ([StreamEvent.acquire, StreamEvent.constructed] ++ items.map StreamEvent.item
          ++ [StreamEvent.terminated]) ++ [StreamEvent.release] := by
  simp [RateLimiter.streamTrace]

/-- C1: along every admissible history of a rate limiter of any capacity the
in-flight count stays between zero and the capacity; the permit of a
`RateLimiter.stream` call is acquired as the trace's first event and released
exactly once, as its very last event — after the stream object's construction,
after every delivered item and after the terminal event (drain, error or
drop); `provided_models` equips every handle it builds with a capacity-4
limiter; and a successful `stream_completion` call produces exactly this
stream-lifetime trace over its normalized items, so its permit is held for the
whole stream, not just until the stream object is constructed. -/
theorem rate_limiter_stream_holds_permit :
    (∀ (limiter : RateLimiter) (es : List PermitEvent) (n : Int),
        Admissible limiter.capacity es n → 0 ≤ n ∧ n ≤ (limiter.capacity : Int))
    ∧ (∀ items : List (Result String String),
        (RateLimiter.streamTrace items).length = items.length + 4
        ∧ (RateLimiter.streamTrace items).head? = some StreamEvent.acquire
        ∧ (RateLimiter.streamTrace items).getLast? = some StreamEvent.release
        ∧ (RateLimiter.streamTrace items).count StreamEvent.release = 1
        ∧ (RateLimiter.streamTrace items).drop (items.length + 2)
            = [StreamEvent.terminated, StreamEvent.release])
    ∧ (∀ (st : State) (lm : OllamaLanguageModel), lm ∈ provided_models st →
        lm.request_limiter.capacity = 4)
    ∧ (∀ (self : OllamaLanguageModel) (request : LanguageModelRequest)
        (s : OllamaSettings) (backend : StreamChatCompletion)
        (events : List (Result Ollama.ChatResponseDelta String)),
        backend (self.to_ollama_request request) s.api_url s.low_speed_timeout
            = Result.ok events →
        self.stream_completion_trace request (some s) backend
            = RateLimiter.streamTrace (events.map normalize_event)) := by
  refine ⟨?_, ?_, ?_, ?_⟩
  · intro limiter es n h
    exact admissible_bounds h
  · intro items
    refine ⟨by simp [RateLimiter.streamTrace], rfl, ?_, ?_, ?_⟩
    · rw [streamTrace_split, List.getLast?_concat]
    · rw [streamTrace_split]
      simp only [List.count_append, count_release_map_item]
      decide
    · show List.drop (items.length + 2)
          (StreamEvent.acquire :: StreamEvent.constructed ::
            (items.map StreamEvent.item
              ++ [StreamEvent.terminated, StreamEvent.release]))
          = [StreamEvent.terminated, StreamEvent.release]
      have h2 : items.length + 2 = (items.length + 1) + 1 := rfl
      rw [h2, List.drop_succ_cons, List.drop_succ_cons,
        ← List.length_map items StreamEvent.item, List.drop_left]
  · intro st lm hlm
    rcases List.mem_map.mp hlm with ⟨m, hm, rfl⟩
    rfl
  · intro self request s backend events hb
    simp [OllamaLanguageModel.stream_completion_trace, hb]

/-- C1 at concrete inputs: a single acquire on the capacity-4 limiter of
`provided_models` leaves one permit in flight, within bounds; and the concrete
one-delta `stream_completion` call's trace is the full stream-lifetime
trace. -/
theorem rate_limiter_stream_holds_permit_witness :
    ((0 : Int) ≤ 1 ∧ (1 : Int) ≤ ((RateLimiter.new 4).capacity : Int))
    ∧ sampleModel.stream_completion_trace sampleRequest (some sampleSettings) backendHi
        = RateLimiter.streamTrace [Result.ok "Hi"] :=
  ⟨rate_limiter_stream_holds_permit.1 (RateLimiter.new 4) [PermitEvent.acquire] 1
      (Admissible.acquire Admissible.nil (by decide)),
    rate_limiter_stream_holds_permit.2.2.2 sampleModel sampleRequest sampleSettings
      backendHi [Result.ok { message := Ollama.ChatMessage.assistant "Hi" }] rfl⟩

end ZedOllama
